import Mathlib

/-!
Verification development for the CoinGlass funding-rate backend (src/main.py).

The Python source is shallowly embedded over exact rational arithmetic:
every float value of the program is modelled as a rational number (the
real-number idealisation of the source's float computations), and Python's
decimal `round(x, n)` built-in is modelled exactly as round-half-even on
that rational value.  UTC datetimes are modelled as microsecond counts
since the epoch; `datetime.utcnow().isoformat()` strings, which no modelled
computation reads, are represented by the underlying microsecond count.
-/

namespace FundingBackend

/-! ## Python numeric built-ins -/

/-- Round-half-even to an integer: the rounding rule of Python's built-in
`round`, applied to the rational idealisation of the float value. -/
def roundHalfEven (x : ℚ) : ℤ :=
  let f := ⌊x⌋
  let r := x - f
  if r < 1/2 then f
  else if 1/2 < r then f + 1
  else if f % 2 = 0 then f else f + 1

/-- Python's `round(x, n)` for `n` decimal places. -/
def pyRound (x : ℚ) (n : ℕ) : ℚ :=
  (roundHalfEven (x * 10 ^ n) : ℚ) / 10 ^ n

/-! ## Funding schedule (src/main.py lines 52-79)

`get_next_funding_time` scans `funding_hours = [0, 8, 16]`, returning the
first `now.replace(hour=h, minute=0, second=0, microsecond=0)` strictly
after `now`, and otherwise midnight of the next day.  With datetimes as
microseconds since the epoch, `now.replace(hour=h, ...)` is
`(now / usPerDay) * usPerDay + h * usPerHour`. -/

def usPerHour : ℕ := 3600000000

def usPerDay : ℕ := 86400000000

/-- `get_next_funding_time()` of src/main.py lines 52-63, with the current
time passed explicitly (the source reads `datetime.utcnow()`). -/
def get_next_funding_time (now : ℕ) : ℕ :=
  let midnight := (now / usPerDay) * usPerDay
  if now < midnight + 0 * usPerHour then midnight + 0 * usPerHour
  else if now < midnight + 8 * usPerHour then midnight + 8 * usPerHour
  else if now < midnight + 16 * usPerHour then midnight + 16 * usPerHour
  else midnight + usPerDay

/-- The dict returned by `time_until_funding()` (src/main.py lines 65-79).
`next_funding_utc` is an ISO-format rendering of the next funding time; it
is modelled by the underlying microsecond count `next_funding_us`. -/
structure FundingInfo where
  next_funding_us : ℕ
  hours_remaining : ℤ
  minutes_remaining : ℤ
  total_minutes : ℤ
deriving DecidableEq

/-- `time_until_funding()` of src/main.py lines 65-79.  `delta.total_seconds()`
is the exact rational `(next - now) / 10^6`; Python's float `//` is the
floor, and the outer `int(...)` truncation agrees with the floor on the
non-negative durations produced here. -/
def time_until_funding (now : ℕ) : FundingInfo :=
  let next := get_next_funding_time now
  let ts : ℚ := ((next : ℚ) - (now : ℚ)) / 1000000
  { next_funding_us := next
    hours_remaining := ⌊ts / 3600⌋
    minutes_remaining := ⌊(ts - 3600 * (⌊ts / 3600⌋ : ℚ)) / 60⌋
    total_minutes := ⌊ts / 60⌋ }

/-! ## Data model -/

/-- One funding-rate record as produced by the fetchers (the dicts built at
src/main.py lines 142-148, 198-204, 253-259).  The `fundingTime` and
`timestamp` fields of those dicts are read by no computation modelled here
and are omitted. -/
structure FundingQuote where
  symbol : String
  exchange : String
  fundingRate : ℚ
deriving DecidableEq

/-- One arbitrage-opportunity dict as built by
`calculate_arbitrage_from_funding_data` (src/main.py lines 512-528).
`timestamp` (`datetime.utcnow().isoformat() + 'Z'`) is modelled by the
microsecond count of the invocation time. -/
structure ArbOpp where
  symbol : String
  strategy : String
  longExchange : String
  shortExchange : String
  longRate : ℚ
  shortRate : ℚ
  divergence : ℚ
  divergence_pct : ℚ
  commission : ℚ
  revenue_8h : ℚ
  revenue_8h_pct : ℚ
  revenue_annual_pct : ℚ
  signal : String
  signal_detail : String
  timestamp : ℕ
deriving DecidableEq

/-! ## String helpers used by the source -/

/-- Characters of `s` before the first `'/'`: Python's `s.split('/')[0]`
(src/main.py line 513). -/
def takeUntilSlash : List Char → List Char
  | [] => []
  | '/' :: _ => []
  | c :: rest => c :: takeUntilSlash rest

/-- Python's `symbol.split('/')[0]`. -/
def symbolHead (s : String) : String :=
  ⟨takeUntilSlash s.data⟩

/-- Remove every (left-to-right, non-overlapping) occurrence of `"USDT"`:
Python's `s.replace('USDT', '')` (src/main.py lines 140, 196). -/
def removeUSDT : List Char → List Char
  | 'U' :: 'S' :: 'D' :: 'T' :: rest => removeUSDT rest
  | c :: rest => c :: removeUSDT rest
  | [] => []

/-- `symbol.replace('USDT', '') + '/USDT:USDT'`, the symbol normalisation
shared by the direct fetchers. -/
def cleanSymbol (s : String) : String :=
  String.mk (removeUSDT s.data) ++ "/USDT:USDT"

/-- Python's `s.endswith('USDT')` (src/main.py line 139). -/
def endsWithUSDT (s : String) : Bool :=
  List.isSuffixOf "USDT".data s.data

/-! ## Arbitrage scorer (src/main.py lines 453-534) -/

/-- One step of grouping: append the quote to its symbol's bucket, creating
the bucket at the end on first sight.  `defaultdict(list)` iterates keys in
first-insertion order and each bucket keeps append order, which this
reproduces. -/
def insertGrouped (m : List (String × List FundingQuote)) (q : FundingQuote) :
    List (String × List FundingQuote) :=
  match m with
  | [] => [(q.symbol, [q])]
  | (s, qs) :: rest =>
    if s = q.symbol then (s, qs ++ [q]) :: rest
    else (s, qs) :: insertGrouped rest q

/-- The `by_symbol` grouping loop of src/main.py lines 460-463. -/
def groupBySymbol (quotes : List FundingQuote) : List (String × List FundingQuote) :=
  quotes.foldl insertGrouped []

/-- Python's `min(rates, key=lambda x: x['fundingRate'])` on the non-empty
list `q0 :: qs`: the first element with the minimal rate (CPython's `min`
replaces the running value only on a strict decrease). -/
def minByRate (q0 : FundingQuote) (qs : List FundingQuote) : FundingQuote :=
  qs.foldl (fun acc q => if q.fundingRate < acc.fundingRate then q else acc) q0

/-- Python's `max(rates, key=lambda x: x['fundingRate'])` on `q0 :: qs`: the
first element with the maximal rate. -/
def maxByRate (q0 : FundingQuote) (qs : List FundingQuote) : FundingQuote :=
  qs.foldl (fun acc q => if acc.fundingRate < q.fundingRate then q else acc) q0

/-- The timing-signal selection of src/main.py lines 500-510. -/
def signalOf (fi : FundingInfo) : String :=
  if 30 < fi.total_minutes then "🟢 ENTRER MAINTENANT"
  else if 5 < fi.total_minutes then "🟡 ENTRER BIENTÔT"
  else "🔴 SORTIR"

/-- The `signal_detail` strings of src/main.py lines 500-510. -/
def signalDetailOf (fi : FundingInfo) : String :=
  if 30 < fi.total_minutes then
    "Position optimale " ++ toString fi.hours_remaining ++ "h" ++
      toString fi.minutes_remaining ++ "m avant funding"
  else if 5 < fi.total_minutes then
    "Ouvrir dans " ++ toString fi.minutes_remaining ++ "m"
  else "Fermer avant funding dans <5min"

/-- The per-symbol body of the scorer loop (src/main.py lines 467-528):
`none` when the symbol contributes no opportunity (`len(rates) < 2`, the
`abs(divergence) > 0.0001` gate, or the `revenue_annual > 10` gate fails),
otherwise the opportunity dict that is appended.  The locals of the source
are inlined: `commission = 0.0008`, `revenue_8h = abs(divergence) - 0.0008`,
`revenue_annual = revenue_8h * 3 * 365 * 100`.  Both arms of the source's
`divergence > 0` branch are kept, although `divergence = max - min ≥ 0`
makes the second arm unreachable.  `now` stands for the wall clock, held
fixed across one scorer run. -/
def mkOpportunity (symbol : String) (rates : List FundingQuote) (now : ℕ) :
    Option ArbOpp :=
  match rates with
  | [] => none
  | [_] => none
  | r0 :: r1 :: rs =>
    let min_rate := minByRate r0 (r1 :: rs)
    let max_rate := maxByRate r0 (r1 :: rs)
    let divergence := max_rate.fundingRate - min_rate.fundingRate
    if 1/10000 < |divergence| then
      if 10 < (|divergence| - 8/10000) * 3 * 365 * 100 then
        if 0 < divergence then
          some
            { symbol := symbolHead symbol
              strategy := "Long/Short"
              longExchange := min_rate.exchange
              shortExchange := max_rate.exchange
              longRate := pyRound min_rate.fundingRate 6
              shortRate := pyRound max_rate.fundingRate 6
              divergence := pyRound |divergence| 6
              divergence_pct := pyRound (|divergence| * 100) 4
              commission := pyRound (8/10000) 6
              revenue_8h := pyRound (|divergence| - 8/10000) 6
              revenue_8h_pct := pyRound ((|divergence| - 8/10000) * 100) 4
              revenue_annual_pct := pyRound ((|divergence| - 8/10000) * 3 * 365 * 100) 2
              signal := signalOf (time_until_funding now)
              signal_detail := signalDetailOf (time_until_funding now)
              timestamp := now }
        else
          some
            { symbol := symbolHead symbol
              strategy := "Short/Long"
              longExchange := max_rate.exchange
              shortExchange := min_rate.exchange
              longRate := pyRound max_rate.fundingRate 6
              shortRate := pyRound min_rate.fundingRate 6
              divergence := pyRound |divergence| 6
              divergence_pct := pyRound (|divergence| * 100) 4
              commission := pyRound (8/10000) 6
              revenue_8h := pyRound (|divergence| - 8/10000) 6
              revenue_8h_pct := pyRound ((|divergence| - 8/10000) * 100) 4
              revenue_annual_pct := pyRound ((|divergence| - 8/10000) * 3 * 365 * 100) 2
              signal := signalOf (time_until_funding now)
              signal_detail := signalDetailOf (time_until_funding now)
              timestamp := now }
      else none
    else none

/-- Insert into a list kept in descending `revenue_annual_pct` order,
placing the new element after every element with an equal or larger key. -/
def insertByRevenue (o : ArbOpp) : List ArbOpp → List ArbOpp
  | [] => [o]
  | x :: xs =>
    if x.revenue_annual_pct < o.revenue_annual_pct then o :: x :: xs
    else x :: insertByRevenue o xs

/-- Stable descending sort on `revenue_annual_pct`: extensionally equal to
Python's `opportunities.sort(key=lambda x: x['revenue_annual_pct'],
reverse=True)` (src/main.py line 531), since a stable sort with respect to
a total preorder is unique. -/
def sortByRevenueDesc (l : List ArbOpp) : List ArbOpp :=
  l.foldl (fun acc o => insertByRevenue o acc) []

/-- `calculate_arbitrage_from_funding_data()` (src/main.py lines 453-534):
group the cached quotes by symbol, score each group, sort descending by
`revenue_annual_pct` and keep the first 10.  The global `funding_data_cache`
it reads and the wall clock are passed explicitly. -/
def calculate_arbitrage_from_funding_data
    (funding_data_cache : List FundingQuote) (now : ℕ) : List ArbOpp :=
  (sortByRevenueDesc
    ((groupBySymbol funding_data_cache).filterMap
      (fun p => mkOpportunity p.1 p.2 now))).take 10

/-! ## Cache and refresh cycle (src/main.py lines 46-50 and 536-577)

The module-level cache consists of the globals `funding_data_cache`,
`arbitrage_opportunities`, `last_update` and `api_status`.
`fetch_all_coinglass_data` mutates them one assignment at a time; we model
a refresh cycle as the sequence of global writes it performs, so that any
prefix is a state a concurrent reader can observe. -/

/-- The module-level cache globals.  `api_status` is the dict at
src/main.py lines 50, 561-565 and 573-577, modelled by its `status` string
and `errors` counter. -/
structure CacheState where
  funding_data_cache : List FundingQuote
  arbitrage_opportunities : List ArbOpp
  last_update : Option ℕ
  status : String
  errors : ℕ
deriving DecidableEq

/-- One assignment to a cache global. -/
inductive CacheWrite
  | setQuotes (q : List FundingQuote)
  | setOpps (o : List ArbOpp)
  | setLastUpdate (t : ℕ)
  | setStatusSuccess
  | setStatusError
deriving DecidableEq

/-- Effect of one global assignment.  `setStatusSuccess` is the dict of
lines 561-565 (`errors: 0`); `setStatusError` is the dict of lines 573-577
(`errors: api_status.get('errors', 0) + 1`). -/
def applyWrite (s : CacheState) : CacheWrite → CacheState
  | .setQuotes q => { s with funding_data_cache := q }
  | .setOpps o => { s with arbitrage_opportunities := o }
  | .setLastUpdate t => { s with last_update := some t }
  | .setStatusSuccess => { s with status := "success", errors := 0 }
  | .setStatusError => { s with status := "error", errors := s.errors + 1 }

/-- The sequence of global writes performed by one run of
`fetch_all_coinglass_data()` (src/main.py lines 536-577), with the two
network results passed explicitly: `funding_rates` is the value returned by
`fetch_coinglass_funding_rates()` and `coinglass_arbitrages` the value
returned by `fetch_coinglass_arbitrage_data()`.

Write order on the calculated path (`coinglass_arbitrages` empty):
line 546 assigns `funding_data_cache`; line 557 calls
`calculate_arbitrage_from_funding_data()`, which ends by assigning the
global `arbitrage_opportunities` (declared `global` there, line 455);
line 560 assigns `last_update`; lines 561-565 assign the success
`api_status`.  The log statement at line 569 then reads the name
`arbitrage_opportunities`, which inside `fetch_all_coinglass_data` is a
function-local variable (it is assigned at line 553 and is missing from the
`global` declaration at line 538) that this path never bound, raising
`UnboundLocalError`; the `except` clause (lines 571-577) therefore ends the
run by assigning the error `api_status`.

On the CoinGlass path (`coinglass_arbitrages` non-empty) the assignment at
line 553 binds only that local, so the global opportunity list is never
written; the run performs the quote, `last_update` and success-status
writes and line 569 reads the bound local without error. -/
def refresh_trace (funding_rates : List FundingQuote)
    (coinglass_arbitrages : List ArbOpp) (now : ℕ) : List CacheWrite :=
  if coinglass_arbitrages.isEmpty then
    [.setQuotes funding_rates,
     .setOpps (calculate_arbitrage_from_funding_data funding_rates now),
     .setLastUpdate now,
     .setStatusSuccess,
     .setStatusError]
  else
    [.setQuotes funding_rates, .setLastUpdate now, .setStatusSuccess]

/-- Run a (prefix of a) refresh cycle's writes from a cache state. -/
def apply_refresh (s : CacheState) (ws : List CacheWrite) : CacheState :=
  ws.foldl applyWrite s

/-! ## Direct exchange fetchers (src/main.py lines 116-217)

Only the response-parsing logic is modelled; the HTTP layer is not.  A JSON
rate field is either missing (`item.get` returns `None`), JSON `null`,
a string, or a number. -/

/-- A JSON value in a rate field. -/
inductive JVal
  | null
  | jstr (s : String)
  | jnum (q : ℚ)
deriving DecidableEq

/-- Python truthiness of `item.get('fundingRate')`: `None` (missing field or
JSON null), the empty string and the number 0 are falsy. -/
def rateTruthy : Option JVal → Bool
  | none => false
  | some .null => false
  | some (.jstr s) => !s.isEmpty
  | some (.jnum q) => decide (q ≠ 0)

/-- A decimal-digit run parsed as a natural number. -/
def natOfDigits (l : List Char) : ℕ :=
  l.foldl (fun n c => 10 * n + (c.toNat - '0'.toNat)) 0

/-- Python's `float(s)` on a plain decimal literal (optional sign, digits,
optional fractional part); `none` when Python raises `ValueError`.
Scientific notation and the special values, which the exchanges' rate
strings do not use, are not modelled. -/
def parseDecimal (s : String) : Option ℚ :=
  let step2 : ℚ → List Char → Option ℚ := fun sign cs =>
    let intPart := cs.takeWhile Char.isDigit
    match cs.dropWhile Char.isDigit with
    | [] =>
      if intPart.isEmpty then none
      else some (sign * (natOfDigits intPart : ℚ))
    | '.' :: frac =>
      if frac.all Char.isDigit && !(intPart.isEmpty && frac.isEmpty) then
        some (sign * ((natOfDigits intPart : ℚ) +
          (natOfDigits frac : ℚ) / 10 ^ frac.length))
      else none
    | _ => none
  match s.data with
  | '-' :: rest => step2 (-1) rest
  | '+' :: rest => step2 1 rest
  | cs => step2 1 cs

/-- `float(v)` on a JSON value: numbers pass through, strings are parsed,
`None` raises `TypeError` (so: no result). -/
def pyFloat : JVal → Option ℚ
  | .null => none
  | .jstr s => parseDecimal s
  | .jnum q => some q

/-- One item of the Binance `fundingRate` response (src/main.py lines
134-137): `symbol = item.get('symbol', '')` and the raw `fundingRate`
field, `none` when missing. -/
structure BinanceItem where
  symbol : String
  fundingRate : Option JVal
deriving DecidableEq

/-- The quote dict a well-formed Binance item produces (lines 140-148). -/
def binanceQuote (i : BinanceItem) (q : ℚ) : FundingQuote :=
  { symbol := cleanSymbol i.symbol, exchange := "binance", fundingRate := q }

/-- The `for item in data[-50:]` loop of `fetch_binance_funding_direct`
(lines 134-148) with exception semantics: `none` means `float(funding_rate)`
raised, which aborts the loop and lands in the function-level `except`.
Items whose symbol does not end in `USDT` or whose rate field is falsy
(missing, null, empty string, zero) are skipped individually. -/
def binanceParseLoop : List BinanceItem → List FundingQuote → Option (List FundingQuote)
  | [], acc => some acc
  | item :: rest, acc =>
    if endsWithUSDT item.symbol && rateTruthy item.fundingRate then
      match item.fundingRate with
      | none => binanceParseLoop rest acc
      | some v =>
        match pyFloat v with
        | some q => binanceParseLoop rest (acc ++ [binanceQuote item q])
        | none => none
    else binanceParseLoop rest acc

/-- `fetch_binance_funding_direct()` (src/main.py lines 116-159) given the
already-decoded 200-response body: parse the last 50 items; any exception
inside the loop falls through to the handler at lines 157-159, which
returns the empty list. -/
def fetch_binance_funding_direct (data : List BinanceItem) : List FundingQuote :=
  match binanceParseLoop (data.drop (data.length - 50)) [] with
  | some results => results
  | none => []

/-- One item of a Bybit funding-history response (src/main.py lines
191-204): only the raw `fundingRate` field matters here. -/
structure BybitItem where
  fundingRate : Option JVal
deriving DecidableEq

/-- The quote dict a well-formed Bybit item produces (lines 196-204). -/
def bybitQuote (symbol : String) (q : ℚ) : FundingQuote :=
  { symbol := cleanSymbol symbol, exchange := "bybit", fundingRate := q }

/-- The inner item loop for one Bybit symbol (lines 191-204), run inside the
per-symbol `try` of lines 176-210: when `float(funding_rate)` raises, the
loop is abandoned but `results` keeps the quotes appended before the raise,
and the outer loop continues with the next symbol. -/
def bybitSymbolLoop (symbol : String) : List BybitItem → List FundingQuote → List FundingQuote
  | [], acc => acc
  | item :: rest, acc =>
    if rateTruthy item.fundingRate then
      match item.fundingRate with
      | none => bybitSymbolLoop symbol rest acc
      | some v =>
        match pyFloat v with
        | some q => bybitSymbolLoop symbol rest (acc ++ [bybitQuote symbol q])
        | none => acc
    else bybitSymbolLoop symbol rest acc

/-- `fetch_bybit_funding_direct()` (src/main.py lines 161-217) given, per
queried symbol, the already-decoded `result.list` items of a 200 response:
the shared `results` list accumulates across symbols, and a failure inside
one symbol's block is confined to that symbol by its `try`/`continue`. -/
def fetch_bybit_funding_direct (responses : List (String × List BybitItem)) :
    List FundingQuote :=
  responses.foldl (fun acc p => bybitSymbolLoop p.1 p.2 acc) []

/-! ## TradingView webhook (src/main.py lines 596-667) -/

/-- The JSON payload of a `POST /webhook/tradingview` request; each field is
`none` when the key is absent (the handler reads them with `data.get`). -/
structure WebhookPayload where
  auth_key : Option String
  symbol : Option String
  action : Option String
  exchange_long : Option String
  exchange_short : Option String
  quantity : Option ℚ
  strategy : Option String
deriving DecidableEq

/-- The `signal_data` dict built at src/main.py lines 625-634;
`tradingview_data` keeps the raw payload and `timestamp` the microsecond
count of `datetime.utcnow()`. -/
structure SignalData where
  symbol : String
  action : String
  exchange_long : String
  exchange_short : String
  quantity : ℚ
  strategy : String
  timestamp : ℕ
  tradingview_data : WebhookPayload
deriving DecidableEq

/-- What the webhook handler returns and leaves behind: the HTTP status
code, the `error` field of the JSON body (`none` on success), and the
`trading_signals` buffer after the request. -/
structure WebhookResult where
  statusCode : ℕ
  error : Option String
  trading_signals : List SignalData
deriving DecidableEq

/-- `tradingview_webhook()` (src/main.py lines 608-667).  `data` is the
parsed JSON body, `none` when `request.get_json()` yields no (truthy)
payload.  The shared-secret check (line 620), the required-field check
(line 637) and the append/trim of the bounded buffer (lines 641-645) are
modelled; the success-path signal processing returns 200 and touches no
modelled state. -/
def tradingview_webhook (webhook_auth_key : String) (data : Option WebhookPayload)
    (trading_signals : List SignalData) (now : ℕ) : WebhookResult :=
  match data with
  | none => ⟨400, some "No JSON data received", trading_signals⟩
  | some d =>
    if d.auth_key.getD "" ≠ webhook_auth_key then
      ⟨401, some "Invalid auth key", trading_signals⟩
    else
      let signal_data : SignalData :=
        { symbol := d.symbol.getD ""
          action := d.action.getD ""
          exchange_long := d.exchange_long.getD ""
          exchange_short := d.exchange_short.getD ""
          quantity := d.quantity.getD 0
          strategy := d.strategy.getD "arbitrage"
          timestamp := now
          tradingview_data := d }
      if signal_data.symbol = "" ∨ signal_data.action = "" then
        ⟨400, some "Missing required fields: symbol, action", trading_signals⟩
      else
        let signals1 := trading_signals ++ [signal_data]
        ⟨200, none, if 100 < signals1.length then signals1.tail else signals1⟩

/-! ## Auxiliary definitions for the statements -/

/-- The time-independent fields of an opportunity: everything except
`signal`, `signal_detail` and `timestamp`. -/
structure ArbCore where
  symbol : String
  strategy : String
  longExchange : String
  shortExchange : String
  longRate : ℚ
  shortRate : ℚ
  divergence : ℚ
  divergence_pct : ℚ
  commission : ℚ
  revenue_8h : ℚ
  revenue_8h_pct : ℚ
  revenue_annual_pct : ℚ
deriving DecidableEq

/-- Project an opportunity to its time-independent fields. -/
def stripTime (o : ArbOpp) : ArbCore :=
  { symbol := o.symbol, strategy := o.strategy,
    longExchange := o.longExchange, shortExchange := o.shortExchange,
    longRate := o.longRate, shortRate := o.shortRate,
    divergence := o.divergence, divergence_pct := o.divergence_pct,
    commission := o.commission, revenue_8h := o.revenue_8h,
    revenue_8h_pct := o.revenue_8h_pct,
    revenue_annual_pct := o.revenue_annual_pct }

/-- Descending order on the sort key used at src/main.py line 531. -/
def revenueGE (a b : ArbOpp) : Prop :=
  b.revenue_annual_pct ≤ a.revenue_annual_pct

/-! ## Concrete scenarios used by counterexamples and witnesses -/

/-- Two quotes for one symbol from two distinct exchanges. -/
def pairQuotes : List FundingQuote :=
  [⟨"BTC/USDT:USDT", "binance", 0⟩, ⟨"BTC/USDT:USDT", "bybit", 1/1000⟩]

/-- Quotes for two symbols with two disjoint exchange pairs. -/
def twoPairQuotes : List FundingQuote :=
  [⟨"BTC/USDT:USDT", "binance", 0⟩, ⟨"BTC/USDT:USDT", "bybit", 1/1000⟩,
   ⟨"ETH/USDT:USDT", "okx", 0⟩, ⟨"ETH/USDT:USDT", "kraken", 2/1000⟩]

/-- Two quotes for one symbol from the same exchange. -/
def sameExchangeQuotes : List FundingQuote :=
  [⟨"BTC/USDT:USDT", "binance", 1/10000⟩, ⟨"BTC/USDT:USDT", "binance", 1/100⟩]

/-- Rates whose 6-decimal roundings interact with the rounding boundary:
0.0000003 rounds to 0 while 0.0009137 rounds to 0.000914, but their
difference 0.0009134 rounds to 0.000913. -/
def roundingQuotes : List FundingQuote :=
  [⟨"BTC/USDT:USDT", "exA", 3/10000000⟩, ⟨"BTC/USDT:USDT", "exB", 9137/10000000⟩]

/-- Rates giving an annualised yield of 12.264, which the source stores
rounded to 12.26. -/
def yieldQuotes : List FundingQuote :=
  [⟨"BTC/USDT:USDT", "exA", 0⟩, ⟨"BTC/USDT:USDT", "exB", 912/1000000⟩]

/-- A cache state as left by an earlier refresh cycle: one quote, one
opportunity, a non-null `last_update`. -/
def staleCache : CacheState :=
  { funding_data_cache := [⟨"BTC/USDT:USDT", "binance", 1/10000⟩]
    arbitrage_opportunities := [
      { symbol := "BTC", strategy := "Long/Short",
        longExchange := "binance", shortExchange := "bybit",
        longRate := 0, shortRate := 1/1000,
        divergence := 1/1000, divergence_pct := 1/10,
        commission := 8/10000, revenue_8h := 2/10000, revenue_8h_pct := 2/100,
        revenue_annual_pct := 219/10,
        signal := "🟢 ENTRER MAINTENANT",
        signal_detail := "Position optimale 8h0m avant funding",
        timestamp := 100 }]
    last_update := some 100
    status := "success"
    errors := 0 }

/-- A single fresh quote for the next cycle; alone it yields no opportunity. -/
def freshQuote : FundingQuote := ⟨"ETH/USDT:USDT", "okx", 5/10000⟩

/-- A well-formed Binance response item. -/
def goodItem : BinanceItem := ⟨"BTCUSDT", some (.jstr "0.0001")⟩

/-- A Binance item whose rate string is not numeric: `float` raises on it. -/
def badItem : BinanceItem := ⟨"ETHUSDT", some (.jstr "abc")⟩

/-- A Binance item whose rate field is missing. -/
def missingItem : BinanceItem := ⟨"SOLUSDT", none⟩

/-- A Binance item whose rate field is JSON null. -/
def nullItem : BinanceItem := ⟨"XRPUSDT", some .null⟩

/-- The quote one Binance item contributes when no exception occurs: `none`
both for items the loop skips (wrong suffix, falsy rate) and for items it
never reaches. -/
def binanceQuoteOf (i : BinanceItem) : Option FundingQuote :=
  if endsWithUSDT i.symbol && rateTruthy i.fundingRate then
    match i.fundingRate with
    | none => none
    | some v => (pyFloat v).map (binanceQuote i)
  else none

/-- Whether `float(funding_rate)` raises on this item: the rate field is
truthy (so the guard at src/main.py line 139 passes) but not parseable. -/
def binanceItemRaises (i : BinanceItem) : Bool :=
  endsWithUSDT i.symbol && rateTruthy i.fundingRate &&
    (match i.fundingRate with
     | none => false
     | some v => (pyFloat v).isNone)

/-- The opportunity the scorer emits for `pairQuotes` at time 0, with its
fields as the source computes them. -/
def pairRec : ArbOpp :=
  { symbol := symbolHead "BTC/USDT:USDT", strategy := "Long/Short",
    longExchange := "binance", shortExchange := "bybit",
    longRate := pyRound 0 6, shortRate := pyRound (1/1000) 6,
    divergence := pyRound (1/1000 - 0) 6,
    divergence_pct := pyRound ((1/1000 - 0) * 100) 4,
    commission := pyRound (8/10000) 6,
    revenue_8h := pyRound ((1/1000 - 0) - 8/10000) 6,
    revenue_8h_pct := pyRound (((1/1000 - 0) - 8/10000) * 100) 4,
    revenue_annual_pct := pyRound (((1/1000 - 0) - 8/10000) * 3 * 365 * 100) 2,
    signal := signalOf (time_until_funding 0),
    signal_detail := signalDetailOf (time_until_funding 0),
    timestamp := 0 }

/-- The opportunity the scorer emits for `pairQuotes` two minutes before a
funding settlement (now = 28680000000 microseconds). -/
def pairRecLate : ArbOpp :=
  { symbol := symbolHead "BTC/USDT:USDT", strategy := "Long/Short",
    longExchange := "binance", shortExchange := "bybit",
    longRate := pyRound 0 6, shortRate := pyRound (1/1000) 6,
    divergence := pyRound (1/1000 - 0) 6,
    divergence_pct := pyRound ((1/1000 - 0) * 100) 4,
    commission := pyRound (8/10000) 6,
    revenue_8h := pyRound ((1/1000 - 0) - 8/10000) 6,
    revenue_8h_pct := pyRound (((1/1000 - 0) - 8/10000) * 100) 4,
    revenue_annual_pct := pyRound (((1/1000 - 0) - 8/10000) * 3 * 365 * 100) 2,
    signal := signalOf (time_until_funding 28680000000),
    signal_detail := signalDetailOf (time_until_funding 28680000000),
    timestamp := 28680000000 }

/-- The opportunity the scorer emits for the ETH pair of `twoPairQuotes`. -/
def ethRec : ArbOpp :=
  { symbol := symbolHead "ETH/USDT:USDT", strategy := "Long/Short",
    longExchange := "okx", shortExchange := "kraken",
    longRate := pyRound 0 6, shortRate := pyRound (2/1000) 6,
    divergence := pyRound (2/1000 - 0) 6,
    divergence_pct := pyRound ((2/1000 - 0) * 100) 4,
    commission := pyRound (8/10000) 6,
    revenue_8h := pyRound ((2/1000 - 0) - 8/10000) 6,
    revenue_8h_pct := pyRound (((2/1000 - 0) - 8/10000) * 100) 4,
    revenue_annual_pct := pyRound (((2/1000 - 0) - 8/10000) * 3 * 365 * 100) 2,
    signal := signalOf (time_until_funding 0),
    signal_detail := signalDetailOf (time_until_funding 0),
    timestamp := 0 }

/-- The opportunity the scorer emits for `sameExchangeQuotes`: both legs on
the same exchange. -/
def sameRec : ArbOpp :=
  { symbol := symbolHead "BTC/USDT:USDT", strategy := "Long/Short",
    longExchange := "binance", shortExchange := "binance",
    longRate := pyRound (1/10000) 6, shortRate := pyRound (1/100) 6,
    divergence := pyRound (1/100 - 1/10000) 6,
    divergence_pct := pyRound ((1/100 - 1/10000) * 100) 4,
    commission := pyRound (8/10000) 6,
    revenue_8h := pyRound ((1/100 - 1/10000) - 8/10000) 6,
    revenue_8h_pct := pyRound (((1/100 - 1/10000) - 8/10000) * 100) 4,
    revenue_annual_pct := pyRound (((1/100 - 1/10000) - 8/10000) * 3 * 365 * 100) 2,
    signal := signalOf (time_until_funding 0),
    signal_detail := signalDetailOf (time_until_funding 0),
    timestamp := 0 }

/-- The opportunity the scorer emits for `roundingQuotes`. -/
def roundRec : ArbOpp :=
  { symbol := symbolHead "BTC/USDT:USDT", strategy := "Long/Short",
    longExchange := "exA", shortExchange := "exB",
    longRate := pyRound (3/10000000) 6, shortRate := pyRound (9137/10000000) 6,
    divergence := pyRound (9137/10000000 - 3/10000000) 6,
    divergence_pct := pyRound ((9137/10000000 - 3/10000000) * 100) 4,
    commission := pyRound (8/10000) 6,
    revenue_8h := pyRound ((9137/10000000 - 3/10000000) - 8/10000) 6,
    revenue_8h_pct := pyRound (((9137/10000000 - 3/10000000) - 8/10000) * 100) 4,
    revenue_annual_pct :=
      pyRound (((9137/10000000 - 3/10000000) - 8/10000) * 3 * 365 * 100) 2,
    signal := signalOf (time_until_funding 0),
    signal_detail := signalDetailOf (time_until_funding 0),
    timestamp := 0 }

/-- The opportunity the scorer emits for `yieldQuotes`. -/
def yieldRec : ArbOpp :=
  { symbol := symbolHead "BTC/USDT:USDT", strategy := "Long/Short",
    longExchange := "exA", shortExchange := "exB",
    longRate := pyRound 0 6, shortRate := pyRound (912/1000000) 6,
    divergence := pyRound (912/1000000 - 0) 6,
    divergence_pct := pyRound ((912/1000000 - 0) * 100) 4,
    commission := pyRound (8/10000) 6,
    revenue_8h := pyRound ((912/1000000 - 0) - 8/10000) 6,
    revenue_8h_pct := pyRound (((912/1000000 - 0) - 8/10000) * 100) 4,
    revenue_annual_pct := pyRound (((912/1000000 - 0) - 8/10000) * 3 * 365 * 100) 2,
    signal := signalOf (time_until_funding 0),
    signal_detail := signalDetailOf (time_until_funding 0),
    timestamp := 0 }

/-! ## Basic facts about the rounding helper -/

theorem floor_le_roundHalfEven (x : ℚ) : ⌊x⌋ ≤ roundHalfEven x := by
  simp only [roundHalfEven]
  split_ifs <;> omega

theorem roundHalfEven_le_floor_add_one (x : ℚ) : roundHalfEven x ≤ ⌊x⌋ + 1 := by
  simp only [roundHalfEven]
  split_ifs <;> omega

theorem roundHalfEven_mono {a b : ℚ} (h : a ≤ b) : roundHalfEven a ≤ roundHalfEven b := by
  by_cases hf : ⌊a⌋ < ⌊b⌋
  · calc roundHalfEven a ≤ ⌊a⌋ + 1 := roundHalfEven_le_floor_add_one a
    _ ≤ ⌊b⌋ := by omega
    _ ≤ roundHalfEven b := floor_le_roundHalfEven b
  · have hfe : ⌊a⌋ = ⌊b⌋ := le_antisymm (Int.floor_mono h) (by omega)
    have hra : (⌊a⌋ : ℚ) ≤ a := Int.floor_le a
    simp only [roundHalfEven, hfe]
    split_ifs <;> first | omega | (exfalso; rw [hfe] at * ; linarith)

theorem roundHalfEven_zero : roundHalfEven 0 = 0 := by
  norm_num [roundHalfEven]

theorem pyRound_mono {a b : ℚ} (n : ℕ) (h : a ≤ b) : pyRound a n ≤ pyRound b n := by
  unfold pyRound
  have hp : (0 : ℚ) < 10 ^ n := by positivity
  exact (div_le_div_iff_of_pos_right hp).mpr
    (Int.cast_le.mpr (roundHalfEven_mono (mul_le_mul_of_nonneg_right h hp.le)))

theorem pyRound_nonneg {a : ℚ} (n : ℕ) (h : 0 ≤ a) : 0 ≤ pyRound a n := by
  have h0 : pyRound 0 n = 0 := by
    simp [pyRound, roundHalfEven_zero]
  calc (0 : ℚ) = pyRound 0 n := h0.symm
  _ ≤ pyRound a n := pyRound_mono n h

/-! ## Facts about the min and max selection -/

theorem minByRate_le (q0 : FundingQuote) (qs : List FundingQuote) :
    (minByRate q0 qs).fundingRate ≤ q0.fundingRate := by
  induction qs generalizing q0 with
  | nil => exact le_refl _
  | cons q qs ih =>
    have hstep : minByRate q0 (q :: qs) =
        minByRate (if q.fundingRate < q0.fundingRate then q else q0) qs := rfl
    rw [hstep]
    by_cases hc : q.fundingRate < q0.fundingRate
    · rw [if_pos hc]; exact le_trans (ih q) hc.le
    · rw [if_neg hc]; exact ih q0

theorem le_maxByRate (q0 : FundingQuote) (qs : List FundingQuote) :
    q0.fundingRate ≤ (maxByRate q0 qs).fundingRate := by
  induction qs generalizing q0 with
  | nil => exact le_refl _
  | cons q qs ih =>
    have hstep : maxByRate q0 (q :: qs) =
        maxByRate (if q0.fundingRate < q.fundingRate then q else q0) qs := rfl
    rw [hstep]
    by_cases hc : q0.fundingRate < q.fundingRate
    · rw [if_pos hc]; exact le_trans hc.le (ih q)
    · rw [if_neg hc]; exact ih q0

theorem minByRate_le_maxByRate (q0 : FundingQuote) (qs : List FundingQuote) :
    (minByRate q0 qs).fundingRate ≤ (maxByRate q0 qs).fundingRate :=
  le_trans (minByRate_le q0 qs) (le_maxByRate q0 qs)

/-! ## Symbolic evaluation of the scorer on a two-quote group -/

theorem mkOpportunity_pair (sym s1 e1 s2 e2 : String) (a b : ℚ) (now : ℕ)
    (hab : a < b) (h1 : 1/10000 < b - a)
    (h2 : 10 < ((b - a) - 8/10000) * 3 * 365 * 100) :
    mkOpportunity sym [⟨s1, e1, a⟩, ⟨s2, e2, b⟩] now = some
      { symbol := symbolHead sym, strategy := "Long/Short",
        longExchange := e1, shortExchange := e2,
        longRate := pyRound a 6, shortRate := pyRound b 6,
        divergence := pyRound (b - a) 6,
        divergence_pct := pyRound ((b - a) * 100) 4,
        commission := pyRound (8/10000) 6,
        revenue_8h := pyRound ((b - a) - 8/10000) 6,
        revenue_8h_pct := pyRound (((b - a) - 8/10000) * 100) 4,
        revenue_annual_pct := pyRound (((b - a) - 8/10000) * 3 * 365 * 100) 2,
        signal := signalOf (time_until_funding now),
        signal_detail := signalDetailOf (time_until_funding now),
        timestamp := now } := by
  have hmin : minByRate ⟨s1, e1, a⟩ [⟨s2, e2, b⟩] = ⟨s1, e1, a⟩ := by
    simp [minByRate, not_lt.mpr hab.le]
  have hmax : maxByRate ⟨s1, e1, a⟩ [⟨s2, e2, b⟩] = ⟨s2, e2, b⟩ := by
    simp [maxByRate, hab]
  rw [mkOpportunity]
  simp only [hmin, hmax]
  rw [abs_of_pos (by linarith : (0:ℚ) < b - a)]
  rw [if_pos h1, if_pos h2, if_pos (by linarith : (0:ℚ) < b - a)]

theorem calc_two_quotes (s1 e1 e2 : String) (a b : ℚ) (now : ℕ)
    (hab : a < b) (h1 : 1/10000 < b - a)
    (h2 : 10 < ((b - a) - 8/10000) * 3 * 365 * 100) :
    calculate_arbitrage_from_funding_data [⟨s1, e1, a⟩, ⟨s1, e2, b⟩] now = [
      { symbol := symbolHead s1, strategy := "Long/Short",
        longExchange := e1, shortExchange := e2,
        longRate := pyRound a 6, shortRate := pyRound b 6,
        divergence := pyRound (b - a) 6,
        divergence_pct := pyRound ((b - a) * 100) 4,
        commission := pyRound (8/10000) 6,
        revenue_8h := pyRound ((b - a) - 8/10000) 6,
        revenue_8h_pct := pyRound (((b - a) - 8/10000) * 100) 4,
        revenue_annual_pct := pyRound (((b - a) - 8/10000) * 3 * 365 * 100) 2,
        signal := signalOf (time_until_funding now),
        signal_detail := signalDetailOf (time_until_funding now),
        timestamp := now }] := by
  have hg : groupBySymbol [⟨s1, e1, a⟩, ⟨s1, e2, b⟩] =
      [(s1, [⟨s1, e1, a⟩, ⟨s1, e2, b⟩])] := by
    simp [groupBySymbol, insertGrouped]
  rw [calculate_arbitrage_from_funding_data, hg]
  rw [List.filterMap_cons, mkOpportunity_pair s1 s1 e1 s1 e2 a b now hab h1 h2]
  simp [sortByRevenueDesc, insertByRevenue, List.filterMap_nil]

/-! ## Characterisation of an emitted opportunity -/

theorem mkOpportunity_eq_some {sym : String} {rates : List FundingQuote} {now : ℕ}
    {o : ArbOpp} (h : mkOpportunity sym rates now = some o) :
    2 ≤ rates.length ∧
    ∃ mn mx : FundingQuote,
      mn.fundingRate ≤ mx.fundingRate ∧
      1/10000 < mx.fundingRate - mn.fundingRate ∧
      10 < (mx.fundingRate - mn.fundingRate - 8/10000) * 3 * 365 * 100 ∧
      o = { symbol := symbolHead sym, strategy := "Long/Short",
            longExchange := mn.exchange, shortExchange := mx.exchange,
            longRate := pyRound mn.fundingRate 6,
            shortRate := pyRound mx.fundingRate 6,
            divergence := pyRound (mx.fundingRate - mn.fundingRate) 6,
            divergence_pct := pyRound ((mx.fundingRate - mn.fundingRate) * 100) 4,
            commission := pyRound (8/10000) 6,
            revenue_8h := pyRound (mx.fundingRate - mn.fundingRate - 8/10000) 6,
            revenue_8h_pct := pyRound ((mx.fundingRate - mn.fundingRate - 8/10000) * 100) 4,
            revenue_annual_pct :=
              pyRound ((mx.fundingRate - mn.fundingRate - 8/10000) * 3 * 365 * 100) 2,
            signal := signalOf (time_until_funding now),
            signal_detail := signalDetailOf (time_until_funding now),
            timestamp := now } := by
  match rates with
  | [] => exact absurd h (by simp [mkOpportunity])
  | [_] => exact absurd h (by simp [mkOpportunity])
  | r0 :: r1 :: rs =>
    have hmm : (minByRate r0 (r1 :: rs)).fundingRate ≤
        (maxByRate r0 (r1 :: rs)).fundingRate := minByRate_le_maxByRate r0 (r1 :: rs)
    rw [mkOpportunity] at h
    rw [abs_of_nonneg (by linarith)] at h
    split_ifs at h with h1 h2 h3
    · refine ⟨by simp, minByRate r0 (r1 :: rs), maxByRate r0 (r1 :: rs), hmm, h1, h2, ?_⟩
      exact (Option.some.inj h).symm
    · exact absurd (by linarith : (0:ℚ) < (maxByRate r0 (r1 :: rs)).fundingRate -
        (minByRate r0 (r1 :: rs)).fundingRate) h3

/-! ## Membership and order through the sort and truncation -/

theorem mem_insertByRevenue {a o : ArbOpp} {l : List ArbOpp} :
    a ∈ insertByRevenue o l ↔ a = o ∨ a ∈ l := by
  induction l with
  | nil => simp [insertByRevenue]
  | cons x xs ih =>
    rw [insertByRevenue]
    split_ifs
    · simp
    · rw [List.mem_cons, ih, List.mem_cons]
      tauto

theorem mem_sortByRevenueDesc {a : ArbOpp} {l : List ArbOpp} :
    a ∈ sortByRevenueDesc l ↔ a ∈ l := by
  suffices h : ∀ (l acc : List ArbOpp) (a : ArbOpp),
      a ∈ l.foldl (fun acc o => insertByRevenue o acc) acc ↔ a ∈ acc ∨ a ∈ l by
    rw [sortByRevenueDesc, h]; simp
  intro l
  induction l with
  | nil => simp
  | cons x xs ih =>
    intro acc a
    rw [List.foldl_cons, ih, mem_insertByRevenue]
    simp
    tauto

theorem pairwise_insertByRevenue {o : ArbOpp} {l : List ArbOpp}
    (h : l.Pairwise revenueGE) : (insertByRevenue o l).Pairwise revenueGE := by
  induction l with
  | nil => simp [insertByRevenue, List.Pairwise]
  | cons x xs ih =>
    rw [insertByRevenue]
    rcases List.pairwise_cons.mp h with ⟨hx, hxs⟩
    split_ifs with hc
    · refine List.pairwise_cons.mpr ⟨?_, h⟩
      intro b hb
      rcases List.mem_cons.mp hb with rfl | hb
      · exact hc.le
      · exact le_trans (hx b hb) hc.le
    · refine List.pairwise_cons.mpr ⟨?_, ih hxs⟩
      intro b hb
      rcases mem_insertByRevenue.mp hb with rfl | hb
      · exact not_lt.mp hc
      · exact hx b hb

theorem pairwise_sortByRevenueDesc (l : List ArbOpp) :
    (sortByRevenueDesc l).Pairwise revenueGE := by
  suffices h : ∀ (l acc : List ArbOpp), acc.Pairwise revenueGE →
      (l.foldl (fun acc o => insertByRevenue o acc) acc).Pairwise revenueGE by
    exact h l [] (by simp)
  intro l
  induction l with
  | nil => intro acc hacc; simpa using hacc
  | cons x xs ih =>
    intro acc hacc
    rw [List.foldl_cons]
    exact ih _ (pairwise_insertByRevenue hacc)

/-- Every emitted opportunity comes from one symbol group of the input. -/
theorem mem_calculate {o : ArbOpp} {quotes : List FundingQuote} {now : ℕ}
    (h : o ∈ calculate_arbitrage_from_funding_data quotes now) :
    ∃ p : String × List FundingQuote,
      p ∈ groupBySymbol quotes ∧ mkOpportunity p.1 p.2 now = some o := by
  rw [calculate_arbitrage_from_funding_data] at h
  have h2 := mem_sortByRevenueDesc.mp (List.take_subset 10 _ h)
  rcases List.mem_filterMap.mp h2 with ⟨p, hp, hmk⟩
  exact ⟨p, hp, hmk⟩

/-! ## Time-independence of the economic fields -/

/-- Relatedness of two opportunities up to the time-dependent fields. -/
def coreEq (a b : ArbOpp) : Prop := stripTime a = stripTime b

theorem coreEq_key {a b : ArbOpp} (h : coreEq a b) :
    a.revenue_annual_pct = b.revenue_annual_pct :=
  congrArg ArbCore.revenue_annual_pct h

theorem mkOpportunity_map_stripTime (sym : String) (rates : List FundingQuote)
    (t1 t2 : ℕ) :
    (mkOpportunity sym rates t1).map stripTime =
    (mkOpportunity sym rates t2).map stripTime := by
  match rates with
  | [] => rfl
  | [_] => rfl
  | r0 :: r1 :: rs =>
    rw [mkOpportunity, mkOpportunity]
    split_ifs <;> simp [stripTime]

theorem forall₂_insertByRevenue {o o' : ArbOpp} {l l' : List ArbOpp}
    (ho : coreEq o o') (h : List.Forall₂ coreEq l l') :
    List.Forall₂ coreEq (insertByRevenue o l) (insertByRevenue o' l') := by
  induction h with
  | nil => exact List.Forall₂.cons ho List.Forall₂.nil
  | @cons x x' xs xs' hx hxs ih =>
    rw [insertByRevenue, insertByRevenue]
    by_cases hc : x.revenue_annual_pct < o.revenue_annual_pct
    · rw [if_pos hc, if_pos (by rw [← coreEq_key hx, ← coreEq_key ho]; exact hc)]
      exact List.Forall₂.cons ho (List.Forall₂.cons hx hxs)
    · rw [if_neg hc, if_neg (by rw [← coreEq_key hx, ← coreEq_key ho]; exact hc)]
      exact List.Forall₂.cons hx ih

theorem forall₂_sortByRevenueDesc {l l' : List ArbOpp}
    (h : List.Forall₂ coreEq l l') :
    List.Forall₂ coreEq (sortByRevenueDesc l) (sortByRevenueDesc l') := by
  suffices haux : ∀ {l l' acc acc' : List ArbOpp}, List.Forall₂ coreEq l l' →
      List.Forall₂ coreEq acc acc' →
      List.Forall₂ coreEq (l.foldl (fun acc o => insertByRevenue o acc) acc)
        (l'.foldl (fun acc o => insertByRevenue o acc) acc') by
    exact haux h List.Forall₂.nil
  intro l l' acc acc' h
  induction h generalizing acc acc' with
  | nil => exact fun hacc => hacc
  | cons hx _ ih =>
    intro hacc
    rw [List.foldl_cons, List.foldl_cons]
    exact ih (forall₂_insertByRevenue hx hacc)

theorem forall₂_take {α : Type} {R : α → α → Prop} :
    ∀ (n : ℕ) {l l' : List α}, List.Forall₂ R l l' →
      List.Forall₂ R (l.take n) (l'.take n) := by
  intro n l l' h
  induction h generalizing n with
  | nil => simp
  | cons hx _ ih =>
    match n with
    | 0 => simp
    | n + 1 => exact List.Forall₂.cons hx (ih n)

theorem map_stripTime_eq_of_forall₂ {l l' : List ArbOpp}
    (h : List.Forall₂ coreEq l l') : l.map stripTime = l'.map stripTime := by
  induction h with
  | nil => rfl
  | cons hx _ ih => rw [List.map_cons, List.map_cons, ih, hx]

/-! ## Arithmetic shape of the funding schedule -/

theorem get_next_funding_time_bounds (now : ℕ) :
    now < get_next_funding_time now ∧
    get_next_funding_time now - now ≤ 8 * usPerHour ∧
    get_next_funding_time now % usPerHour = 0 ∧
    (get_next_funding_time now / usPerHour % 24 = 0 ∨
     get_next_funding_time now / usPerHour % 24 = 8 ∨
     get_next_funding_time now / usPerHour % 24 = 16) := by
  rw [get_next_funding_time]
  have h1 : usPerDay * (now / usPerDay) ≤ now := Nat.mul_div_le now usPerDay
  have h2 : now % usPerDay < usPerDay := Nat.mod_lt now (by norm_num [usPerDay])
  have h3 : usPerDay * (now / usPerDay) + now % usPerDay = now := Nat.div_add_mod now usPerDay
  simp only [usPerDay, usPerHour] at *
  split_ifs <;> omega

/-- The fields of `time_until_funding` as integer divisions of the
microsecond countdown. -/
theorem time_until_funding_fields (now : ℕ) :
    time_until_funding now =
      { next_funding_us := get_next_funding_time now
        hours_remaining := ((get_next_funding_time now - now) / 3600000000 : ℕ)
        minutes_remaining :=
          ((get_next_funding_time now - now) % 3600000000 / 60000000 : ℕ)
        total_minutes := ((get_next_funding_time now - now) / 60000000 : ℕ) } := by
  have hlt : now < get_next_funding_time now := (get_next_funding_time_bounds now).1
  simp only [time_until_funding]
  set N := get_next_funding_time now with hN
  set Δ := N - now with hΔdef
  have hcast : ((N : ℚ) - (now : ℚ)) = (Δ : ℚ) := by
    rw [hΔdef, Nat.cast_sub hlt.le]
  rw [hcast]
  have hh : ⌊(Δ : ℚ) / 1000000 / 3600⌋ = ((Δ / 3600000000 : ℕ) : ℤ) := by
    rw [div_div, show ((1000000 : ℚ) * 3600) = ((3600000000 : ℕ) : ℚ) by norm_num,
      Rat.floor_natCast_div_natCast]
    exact (Int.ofNat_div _ _).symm
  have htm : ⌊(Δ : ℚ) / 1000000 / 60⌋ = ((Δ / 60000000 : ℕ) : ℤ) := by
    rw [div_div, show ((1000000 : ℚ) * 60) = ((60000000 : ℕ) : ℚ) by norm_num,
      Rat.floor_natCast_div_natCast]
    exact (Int.ofNat_div _ _).symm
  have hdm2 : (3600000000 : ℚ) * ((Δ / 3600000000 : ℕ) : ℚ) +
      ((Δ % 3600000000 : ℕ) : ℚ) = (Δ : ℚ) := by
    exact_mod_cast congrArg (fun n : ℕ => (n : ℚ)) (Nat.div_add_mod Δ 3600000000)
  have harg : ((Δ : ℚ) / 1000000 - 3600 * ((Δ / 3600000000 : ℕ) : ℚ)) / 60 =
      ((Δ % 3600000000 : ℕ) : ℚ) / ((60000000 : ℕ) : ℚ) := by
    field_simp
    linarith
  have hm : ⌊((Δ : ℚ) / 1000000 - 3600 * ((⌊(Δ : ℚ) / 1000000 / 3600⌋ : ℤ) : ℚ)) / 60⌋ =
      ((Δ % 3600000000 / 60000000 : ℕ) : ℤ) := by
    rw [hh, Int.cast_natCast, harg, Rat.floor_natCast_div_natCast]
    exact (Int.ofNat_div _ _).symm
  rw [hm, hh, htm]

theorem forall₂_filterMap_mk (L : List (String × List FundingQuote)) (t1 t2 : ℕ) :
    List.Forall₂ coreEq (L.filterMap (fun p => mkOpportunity p.1 p.2 t1))
      (L.filterMap (fun p => mkOpportunity p.1 p.2 t2)) := by
  induction L with
  | nil => exact List.Forall₂.nil
  | cons p L ih =>
    rw [List.filterMap_cons, List.filterMap_cons]
    have h := mkOpportunity_map_stripTime p.1 p.2 t1 t2
    cases h1 : mkOpportunity p.1 p.2 t1 with
    | none =>
      cases h2 : mkOpportunity p.1 p.2 t2 with
      | none => exact ih
      | some o2 => rw [h1, h2] at h; simp at h
    | some o1 =>
      cases h2 : mkOpportunity p.1 p.2 t2 with
      | none => rw [h1, h2] at h; simp at h
      | some o2 =>
        rw [h1, h2] at h
        simp only [Option.map_some'] at h
        exact List.Forall₂.cons (Option.some.inj h) ih

/-! ## Evaluation lemmas for the refresh cycle -/

theorem calc_nil (now : ℕ) :
    calculate_arbitrage_from_funding_data [] now = [] := rfl

theorem calc_single (q : FundingQuote) (now : ℕ) :
    calculate_arbitrage_from_funding_data [q] now = [] := rfl

theorem apply_refresh_calc_path (s0 : CacheState) (fr : List FundingQuote) (now : ℕ) :
    apply_refresh s0 (refresh_trace fr [] now) =
      { funding_data_cache := fr
        arbitrage_opportunities := calculate_arbitrage_from_funding_data fr now
        last_update := some now
        status := "error"
        errors := 1 } := by
  simp [apply_refresh, refresh_trace, applyWrite]

theorem apply_refresh_cg_path (s0 : CacheState) (fr : List FundingQuote)
    (cg : List ArbOpp) (now : ℕ) (h : cg ≠ []) :
    apply_refresh s0 (refresh_trace fr cg now) =
      { funding_data_cache := fr
        arbitrage_opportunities := s0.arbitrage_opportunities
        last_update := some now
        status := "success"
        errors := 0 } := by
  match cg with
  | [] => exact absurd rfl h
  | c :: cs => simp [apply_refresh, refresh_trace, applyWrite]

/-! ## Evaluation lemmas for the fetchers -/

theorem binanceParseLoop_no_raise {items : List BinanceItem}
    (h : ∀ i ∈ items, binanceItemRaises i = false) (acc : List FundingQuote) :
    binanceParseLoop items acc = some (acc ++ items.filterMap binanceQuoteOf) := by
  induction items generalizing acc with
  | nil => simp [binanceParseLoop]
  | cons i rest ih =>
    have hi := h i (List.mem_cons_self i rest)
    have hrest : ∀ j ∈ rest, binanceItemRaises j = false :=
      fun j hj => h j (List.mem_cons_of_mem i hj)
    obtain ⟨isym, irate⟩ := i
    rw [binanceParseLoop, List.filterMap_cons]
    by_cases hc : (endsWithUSDT isym && rateTruthy irate) = true
    · rw [if_pos hc]
      cases irate with
      | none =>
        rw [show binanceQuoteOf ⟨isym, none⟩ = none from by
          rw [binanceQuoteOf, if_pos hc]]
        exact ih hrest acc
      | some v =>
        cases hq : pyFloat v with
        | none =>
          exfalso
          have htrue : binanceItemRaises ⟨isym, some v⟩ = true := by
            rw [binanceItemRaises]
            dsimp only
            rw [hq]
            simp only [Option.isNone_none, Bool.and_true]
            exact hc
          rw [hi] at htrue
          exact Bool.noConfusion htrue
        | some q =>
          dsimp only
          rw [hq]
          dsimp only
          rw [show binanceQuoteOf ⟨isym, some v⟩ = some (binanceQuote ⟨isym, some v⟩ q) from by
            rw [binanceQuoteOf, if_pos hc]
            dsimp only
            rw [hq]
            rfl]
          rw [ih hrest (acc ++ [binanceQuote ⟨isym, some v⟩ q])]
          simp
    · rw [if_neg hc]
      rw [show binanceQuoteOf ⟨isym, irate⟩ = none from by
        rw [binanceQuoteOf, if_neg hc]]
      exact ih hrest acc

theorem fetch_binance_no_raise {items : List BinanceItem}
    (h : ∀ i ∈ items.drop (items.length - 50), binanceItemRaises i = false) :
    fetch_binance_funding_direct items =
      (items.drop (items.length - 50)).filterMap binanceQuoteOf := by
  have hl := binanceParseLoop_no_raise h []
  unfold fetch_binance_funding_direct
  rw [hl]
  simp

theorem bybitSymbolLoop_append (s : String) (items : List BybitItem)
    (acc : List FundingQuote) :
    bybitSymbolLoop s items acc = acc ++ bybitSymbolLoop s items [] := by
  induction items generalizing acc with
  | nil => simp [bybitSymbolLoop]
  | cons i rest ih =>
    obtain ⟨irate⟩ := i
    rw [bybitSymbolLoop]
    rw [show bybitSymbolLoop s (⟨irate⟩ :: rest) [] =
        if rateTruthy irate = true then
          (match irate with
           | none => bybitSymbolLoop s rest []
           | some v =>
             match pyFloat v with
             | some q => bybitSymbolLoop s rest ([] ++ [bybitQuote s q])
             | none => ([] : List FundingQuote))
        else bybitSymbolLoop s rest [] from rfl]
    by_cases hc : rateTruthy irate = true
    · rw [if_pos hc, if_pos hc]
      cases irate with
      | none => exact ih acc
      | some v =>
        dsimp only
        cases hq : pyFloat v with
        | none => simp
        | some q =>
          dsimp only
          rw [ih (acc ++ [bybitQuote s q]), List.nil_append,
            ih [bybitQuote s q]]
          simp
    · rw [if_neg hc, if_neg hc]
      exact ih acc

theorem fetch_bybit_join (responses : List (String × List BybitItem)) :
    fetch_bybit_funding_direct responses =
      (responses.map (fun p => bybitSymbolLoop p.1 p.2 [])).join := by
  rw [fetch_bybit_funding_direct]
  suffices aux : ∀ (rs : List (String × List BybitItem)) (acc : List FundingQuote),
      List.foldl (fun acc p => bybitSymbolLoop p.1 p.2 acc) acc rs =
      acc ++ (rs.map (fun p => bybitSymbolLoop p.1 p.2 [])).join by
    simpa using aux responses []
  intro rs
  induction rs with
  | nil => simp
  | cons p rest ih =>
    intro acc
    rw [List.foldl_cons, ih, bybitSymbolLoop_append]
    simp

/-! ## Concrete scenario evaluations -/

theorem tuf_at_zero : time_until_funding 0 = ⟨28800000000, 8, 0, 480⟩ := by
  rw [time_until_funding_fields]
  norm_num [get_next_funding_time, usPerDay, usPerHour]

theorem tuf_late : time_until_funding 28680000000 = ⟨28800000000, 0, 2, 2⟩ := by
  rw [time_until_funding_fields]
  norm_num [get_next_funding_time, usPerDay, usPerHour]

theorem calc_pair_at_zero :
    calculate_arbitrage_from_funding_data pairQuotes 0 = [pairRec] :=
  calc_two_quotes "BTC/USDT:USDT" "binance" "bybit" 0 (1/1000) 0
    (by norm_num) (by norm_num) (by norm_num)

theorem calc_pair_late :
    calculate_arbitrage_from_funding_data pairQuotes 28680000000 = [pairRecLate] :=
  calc_two_quotes "BTC/USDT:USDT" "binance" "bybit" 0 (1/1000) 28680000000
    (by norm_num) (by norm_num) (by norm_num)

theorem calc_same_exchange :
    calculate_arbitrage_from_funding_data sameExchangeQuotes 0 = [sameRec] :=
  calc_two_quotes "BTC/USDT:USDT" "binance" "binance" (1/10000) (1/100) 0
    (by norm_num) (by norm_num) (by norm_num)

theorem calc_rounding :
    calculate_arbitrage_from_funding_data roundingQuotes 0 = [roundRec] :=
  calc_two_quotes "BTC/USDT:USDT" "exA" "exB" (3/10000000) (9137/10000000) 0
    (by norm_num) (by norm_num) (by norm_num)

theorem calc_yield :
    calculate_arbitrage_from_funding_data yieldQuotes 0 = [yieldRec] :=
  calc_two_quotes "BTC/USDT:USDT" "exA" "exB" 0 (912/1000000) 0
    (by norm_num) (by norm_num) (by norm_num)

theorem calc_two_pairs :
    calculate_arbitrage_from_funding_data twoPairQuotes 0 = [ethRec, pairRec] := by
  have hB : mkOpportunity "BTC/USDT:USDT"
      [⟨"BTC/USDT:USDT", "binance", 0⟩, ⟨"BTC/USDT:USDT", "bybit", 1/1000⟩] 0 =
      some pairRec :=
    mkOpportunity_pair "BTC/USDT:USDT" "BTC/USDT:USDT" "binance" "BTC/USDT:USDT"
      "bybit" 0 (1/1000) 0 (by norm_num) (by norm_num) (by norm_num)
  have hE : mkOpportunity "ETH/USDT:USDT"
      [⟨"ETH/USDT:USDT", "okx", 0⟩, ⟨"ETH/USDT:USDT", "kraken", 2/1000⟩] 0 =
      some ethRec :=
    mkOpportunity_pair "ETH/USDT:USDT" "ETH/USDT:USDT" "okx" "ETH/USDT:USDT"
      "kraken" 0 (2/1000) 0 (by norm_num) (by norm_num) (by norm_num)
  have hg : groupBySymbol twoPairQuotes =
      [("BTC/USDT:USDT",
        [⟨"BTC/USDT:USDT", "binance", 0⟩, ⟨"BTC/USDT:USDT", "bybit", 1/1000⟩]),
       ("ETH/USDT:USDT",
        [⟨"ETH/USDT:USDT", "okx", 0⟩, ⟨"ETH/USDT:USDT", "kraken", 2/1000⟩])] := by
    simp [twoPairQuotes, groupBySymbol, insertGrouped]
  have hcmp : pairRec.revenue_annual_pct < ethRec.revenue_annual_pct := by
    norm_num [pairRec, ethRec, pyRound, roundHalfEven]
  rw [calculate_arbitrage_from_funding_data, hg, List.filterMap_cons, hB,
    List.filterMap_cons, hE, List.filterMap_nil]
  rw [sortByRevenueDesc, List.foldl_cons, List.foldl_cons, List.foldl_nil]
  rw [show insertByRevenue pairRec [] = [pairRec] from rfl]
  rw [insertByRevenue, if_pos hcmp]
  rfl

theorem apply_refresh_first_write (s0 : CacheState) (fr : List FundingQuote)
    (cg : List ArbOpp) (now : ℕ) :
    apply_refresh s0 ((refresh_trace fr cg now).take 1) =
      { s0 with funding_data_cache := fr } := by
  rw [refresh_trace]
  split_ifs <;> simp [apply_refresh, applyWrite]

/-! ## The claims -/

/-- C1 (amended): every opportunity emitted by the scorer carries the
hard-coded constant commission 0.0008; it does not vary with the chosen
pair of exchanges, and the code consults no commission table. -/
theorem C1_commission_constant (quotes : List FundingQuote) (now : ℕ) (o : ArbOpp)
    (h : o ∈ calculate_arbitrage_from_funding_data quotes now) :
    o.commission = 8/10000 := by
  rcases mem_calculate h with ⟨p, _, hmk⟩
  rcases mkOpportunity_eq_some hmk with ⟨_, mn, mx, _, _, _, rfl⟩
  show pyRound (8/10000) 6 = 8/10000
  norm_num [pyRound, roundHalfEven]

/-- C1 counterexample: two opportunities whose exchange pairs are disjoint
(okx-kraken versus binance-bybit) carry the identical commission 0.0008, so
commission does not vary with the pair of exchanges. -/
theorem C1_counterexample :
    (calculate_arbitrage_from_funding_data twoPairQuotes 0).map
        (fun o => (o.longExchange, o.shortExchange, o.commission)) =
      [("okx", "kraken", 8/10000), ("binance", "bybit", 8/10000)] ∧
    ("okx", "kraken") ≠ ("binance", "bybit") := by
  constructor
  · rw [calc_two_pairs]
    norm_num [ethRec, pairRec, pyRound, roundHalfEven]
  · decide

/-- C1 witness: the commission field of the concrete emitted opportunity is
0.0008. -/
theorem C1_witness :
    (calculate_arbitrage_from_funding_data pairQuotes 0).map ArbOpp.commission =
      [8/10000] := by
  have h := C1_commission_constant pairQuotes 0 pairRec
    (by rw [calc_pair_at_zero]; exact List.mem_singleton_self _)
  rw [calc_pair_at_zero, List.map_cons, List.map_nil, h]

/-- C2 (amended): the refresh cycle writes the cache globals one assignment
at a time rather than as one snapshot.  On the calculated path (empty
CoinGlass arbitrage result) the completed cycle leaves the cycle's quotes,
the opportunities computed from them and the cycle's lastUpdate, with
api_status ending in the error state because the final log statement raises
UnboundLocalError.  When the CoinGlass arbitrage fetch returns data, the
assignment at line 553 binds a local, so the completed cycle pairs the new
quotes and lastUpdate with the previous cycle's opportunity list.  After
only the first write of any cycle, a reader sees the new quotes with every
other field still from the previous cycle. -/
theorem C2_refresh_writes :
    (∀ (s0 : CacheState) (fr : List FundingQuote) (now : ℕ),
      apply_refresh s0 (refresh_trace fr [] now) =
        { funding_data_cache := fr
          arbitrage_opportunities := calculate_arbitrage_from_funding_data fr now
          last_update := some now
          status := "error"
          errors := 1 }) ∧
    (∀ (s0 : CacheState) (fr : List FundingQuote) (cg : List ArbOpp) (now : ℕ),
      cg ≠ [] →
      apply_refresh s0 (refresh_trace fr cg now) =
        { funding_data_cache := fr
          arbitrage_opportunities := s0.arbitrage_opportunities
          last_update := some now
          status := "success"
          errors := 0 }) ∧
    (∀ (s0 : CacheState) (fr : List FundingQuote) (cg : List ArbOpp) (now : ℕ),
      apply_refresh s0 ((refresh_trace fr cg now).take 1) =
        { s0 with funding_data_cache := fr }) :=
  ⟨apply_refresh_calc_path, apply_refresh_cg_path, apply_refresh_first_write⟩

/-- C2 counterexample: after the first write of cycle N, a reader observes a
non-null lastUpdate (cycle N−1's) with cycle-N quotes and cycle-N−1
opportunities, which are not the opportunities computed from the quotes it
sees. -/
theorem C2_counterexample :
    (apply_refresh staleCache ((refresh_trace [freshQuote] [] 200).take 1)).last_update
      = some 100 ∧
    (apply_refresh staleCache
        ((refresh_trace [freshQuote] [] 200).take 1)).funding_data_cache
      = [freshQuote] ∧
    (apply_refresh staleCache
        ((refresh_trace [freshQuote] [] 200).take 1)).arbitrage_opportunities
      = staleCache.arbitrage_opportunities ∧
    calculate_arbitrage_from_funding_data [freshQuote] 200 = [] ∧
    staleCache.arbitrage_opportunities ≠ [] := by
  refine ⟨rfl, rfl, rfl, rfl, ?_⟩
  simp [staleCache]

/-- C2 witness: the CoinGlass-path conclusion at a concrete stale cache, a
concrete fresh quote list and a non-empty CoinGlass arbitrage result. -/
theorem C2_witness :
    apply_refresh staleCache
        (refresh_trace [freshQuote] staleCache.arbitrage_opportunities 200) =
      { funding_data_cache := [freshQuote]
        arbitrage_opportunities := staleCache.arbitrage_opportunities
        last_update := some 200
        status := "success"
        errors := 0 } :=
  C2_refresh_writes.2.1 staleCache [freshQuote] staleCache.arbitrage_opportunities 200
    (by simp [staleCache])

/-- C3 (amended): a refresh cycle whose collection returns no quotes (total
outage: both fetchers return empty lists, no exception) replaces the cached
quote list and opportunity list with empty lists — the cache is cleared, not
preserved, and this variant has no fallback dataset.  The error counter does
end incremented, but only via the UnboundLocalError of the logging line. -/
theorem C3_empty_collection_clears_cache :
    ∀ (s0 : CacheState) (now : ℕ),
      apply_refresh s0 (refresh_trace [] [] now) =
        { funding_data_cache := []
          arbitrage_opportunities := []
          last_update := some now
          status := "error"
          errors := 1 } := by
  intro s0 now
  have h := apply_refresh_calc_path s0 [] now
  rw [calc_nil] at h
  exact h

/-- C3 counterexample: starting from a cache holding one quote and one
opportunity, a cycle that collects nothing leaves both lists empty — the
cache ends strictly emptier than before the cycle ran. -/
theorem C3_counterexample :
    (apply_refresh staleCache (refresh_trace [] [] 200)).funding_data_cache = [] ∧
    (apply_refresh staleCache (refresh_trace [] [] 200)).arbitrage_opportunities = [] ∧
    staleCache.funding_data_cache ≠ [] ∧
    staleCache.arbitrage_opportunities ≠ [] := by
  refine ⟨rfl, rfl, ?_, ?_⟩ <;> simp [staleCache]

/-- C4 (amended): an opportunity is emitted for a symbol only if that
symbol's group holds at least 2 quotes; the guard counts quotes, not
distinct exchanges. -/
theorem C4_two_quotes_required (quotes : List FundingQuote) (now : ℕ) (o : ArbOpp)
    (h : o ∈ calculate_arbitrage_from_funding_data quotes now) :
    ∃ p : String × List FundingQuote,
      p ∈ groupBySymbol quotes ∧ 2 ≤ p.2.length ∧
      mkOpportunity p.1 p.2 now = some o := by
  rcases mem_calculate h with ⟨p, hp, hmk⟩
  exact ⟨p, hp, (mkOpportunity_eq_some hmk).1, hmk⟩

/-- C4 counterexample: two quotes for one symbol from the single exchange
binance — one distinct exchange reporting — still produce an emitted
opportunity, with both legs on binance. -/
theorem C4_counterexample :
    (calculate_arbitrage_from_funding_data sameExchangeQuotes 0).map
        (fun o => (o.longExchange, o.shortExchange)) = [("binance", "binance")] ∧
    sameExchangeQuotes.map FundingQuote.exchange = ["binance", "binance"] := by
  constructor
  · rw [calc_same_exchange]
    rfl
  · rfl

/-- C4 witness: the concrete emitted opportunity for `pairQuotes` comes from
a group with at least 2 quotes. -/
theorem C4_witness :
    ∃ p : String × List FundingQuote,
      p ∈ groupBySymbol pairQuotes ∧ 2 ≤ p.2.length ∧
      mkOpportunity p.1 p.2 0 = some pairRec :=
  C4_two_quotes_required pairQuotes 0 pairRec
    (by rw [calc_pair_at_zero]; exact List.mem_singleton_self _)

/-- C5 (amended): the scorer is deterministic given the quote list and the
wall-clock time, and all economic fields — symbol, strategy, exchanges,
rates, spread, commission, revenues, and the ranking — are independent of
the invocation time; but the emitted signal, signal_detail and timestamp
fields depend on the wall clock, so runs at different times differ. -/
theorem C5_core_time_independent (quotes : List FundingQuote) (t1 t2 : ℕ) :
    (calculate_arbitrage_from_funding_data quotes t1).map stripTime =
    (calculate_arbitrage_from_funding_data quotes t2).map stripTime := by
  rw [calculate_arbitrage_from_funding_data, calculate_arbitrage_from_funding_data]
  exact map_stripTime_eq_of_forall₂
    (forall₂_take 10 (forall₂_sortByRevenueDesc (forall₂_filterMap_mk _ t1 t2)))

/-- C5 counterexample: the identical quote list scored at two different
times yields different opportunity lists — the signal field flips from the
enter signal (8 h before funding) to the exit signal (2 min before). -/
theorem C5_counterexample :
    (calculate_arbitrage_from_funding_data pairQuotes 0).map ArbOpp.signal =
      ["🟢 ENTRER MAINTENANT"] ∧
    (calculate_arbitrage_from_funding_data pairQuotes 28680000000).map ArbOpp.signal =
      ["🔴 SORTIR"] ∧
    calculate_arbitrage_from_funding_data pairQuotes 0 ≠
      calculate_arbitrage_from_funding_data pairQuotes 28680000000 := by
  have h1 : pairRec.signal = "🟢 ENTRER MAINTENANT" := by
    show signalOf (time_until_funding 0) = _
    rw [tuf_at_zero]
    decide
  have h2 : pairRecLate.signal = "🔴 SORTIR" := by
    show signalOf (time_until_funding 28680000000) = _
    rw [tuf_late]
    decide
  refine ⟨?_, ?_, ?_⟩
  · rw [calc_pair_at_zero, List.map_cons, List.map_nil, h1]
  · rw [calc_pair_late, List.map_cons, List.map_nil, h2]
  · intro heq
    rw [calc_pair_at_zero, calc_pair_late] at heq
    have := congrArg (fun l => l.map ArbOpp.signal) heq
    simp only [List.map_cons, List.map_nil, h1, h2] at this
    exact absurd this (by decide)

/-- C6 (amended): every emitted opportunity satisfies longRate ≤ shortRate
and spread ≥ 0, including with negative rates; the spread field is
maxRate − minRate rounded to 6 decimals, which can differ from
shortRate − longRate because each field is rounded independently. -/
theorem C6_long_le_short (quotes : List FundingQuote) (now : ℕ) (o : ArbOpp)
    (h : o ∈ calculate_arbitrage_from_funding_data quotes now) :
    o.longRate ≤ o.shortRate ∧ 0 ≤ o.divergence ∧
    ∃ mn mx : ℚ, mn ≤ mx ∧ o.longRate = pyRound mn 6 ∧
      o.shortRate = pyRound mx 6 ∧ o.divergence = pyRound (mx - mn) 6 := by
  rcases mem_calculate h with ⟨p, _, hmk⟩
  rcases mkOpportunity_eq_some hmk with ⟨_, mn, mx, hle, _, _, rfl⟩
  exact ⟨pyRound_mono 6 hle, pyRound_nonneg 6 (by linarith),
    mn.fundingRate, mx.fundingRate, hle, rfl, rfl, rfl⟩

/-- C6 counterexample: for the rates 0.0000003 and 0.0009137 the emitted
spread field is 0.000913 while shortRate − longRate is 0.000914 — the
equality spread = shortRate − longRate fails under the field-wise rounding. -/
theorem C6_counterexample :
    (calculate_arbitrage_from_funding_data roundingQuotes 0).map
        (fun o => (o.shortRate - o.longRate, o.divergence)) =
      [(914/1000000, 913/1000000)] ∧
    ((914 : ℚ)/1000000) ≠ 913/1000000 := by
  constructor
  · rw [calc_rounding]
    norm_num [roundRec, pyRound, roundHalfEven]
  · norm_num

/-- C6 witness: the inequalities at the concrete emitted opportunity. -/
theorem C6_witness :
    pairRec.longRate ≤ pairRec.shortRate ∧ 0 ≤ pairRec.divergence ∧
    ∃ mn mx : ℚ, mn ≤ mx ∧ pairRec.longRate = pyRound mn 6 ∧
      pairRec.shortRate = pyRound mx 6 ∧ pairRec.divergence = pyRound (mx - mn) 6 :=
  C6_long_le_short pairQuotes 0 pairRec
    (by rw [calc_pair_at_zero]; exact List.mem_singleton_self _)

/-- C7 (amended): every emitted opportunity's annualizedYieldPct field is
(spread − commission) × 3 × 365 × 100 rounded to 2 decimals, where spread is
the pre-rounding maxRate − minRate; opportunities whose pre-rounding
annualised yield is at most 10 are discarded; the survivors are sorted in
descending order of the annualizedYieldPct field and truncated to the top
10. -/
theorem C7_yield_filter_sort (quotes : List FundingQuote) (now : ℕ) :
    (calculate_arbitrage_from_funding_data quotes now).Pairwise revenueGE ∧
    (calculate_arbitrage_from_funding_data quotes now).length ≤ 10 ∧
    ∀ o ∈ calculate_arbitrage_from_funding_data quotes now,
      ∃ s : ℚ, 0 ≤ s ∧ o.divergence = pyRound s 6 ∧
        o.revenue_annual_pct = pyRound ((s - 8/10000) * 3 * 365 * 100) 2 ∧
        10 < (s - 8/10000) * 3 * 365 * 100 := by
  refine ⟨?_, ?_, ?_⟩
  · rw [calculate_arbitrage_from_funding_data]
    exact List.Pairwise.sublist (List.take_sublist 10 _) (pairwise_sortByRevenueDesc _)
  · rw [calculate_arbitrage_from_funding_data]
    exact List.length_take_le 10 _
  · intro o ho
    rcases mem_calculate ho with ⟨p, _, hmk⟩
    rcases mkOpportunity_eq_some hmk with ⟨_, mn, mx, hle, _, h2, rfl⟩
    exact ⟨mx.fundingRate - mn.fundingRate, by linarith, rfl, rfl, h2⟩

/-- C7 counterexample: for the rates 0 and 0.000912 the emitted
annualizedYieldPct field is 12.26 while (spread − commission) × 3 × 365 × 100
evaluates to 12.264 — the exact equality fails because the field is rounded
to 2 decimals. -/
theorem C7_counterexample :
    (calculate_arbitrage_from_funding_data yieldQuotes 0).map
        (fun o => (o.revenue_annual_pct, (o.divergence - o.commission) * 3 * 365 * 100)) =
      [(1226/100, 12264/1000)] ∧
    ((1226 : ℚ)/100) ≠ 12264/1000 := by
  constructor
  · rw [calc_yield]
    norm_num [yieldRec, pyRound, roundHalfEven]
  · norm_num

/-- C7 witness: the filter, formula and bounds at a concrete input. -/
theorem C7_witness :
    (calculate_arbitrage_from_funding_data pairQuotes 0).Pairwise revenueGE ∧
    (calculate_arbitrage_from_funding_data pairQuotes 0).length ≤ 10 ∧
    (∃ s : ℚ, 0 ≤ s ∧ pairRec.divergence = pyRound s 6 ∧
      pairRec.revenue_annual_pct = pyRound ((s - 8/10000) * 3 * 365 * 100) 2 ∧
      10 < (s - 8/10000) * 3 * 365 * 100) :=
  ⟨(C7_yield_filter_sort pairQuotes 0).1, (C7_yield_filter_sort pairQuotes 0).2.1,
   (C7_yield_filter_sort pairQuotes 0).2.2 pairRec
     (by rw [calc_pair_at_zero]; exact List.mem_singleton_self _)⟩

/-- C8 (amended): a missing or null (falsy) rate field causes only that item
to be skipped — when no item raises, the Binance fetcher returns exactly the
per-item parses of the last 50 items.  But a non-numeric rate string in one
Binance item raises inside the loop and the function-level handler returns
the empty list, discarding the whole Binance batch; in the Bybit fetcher
each symbol's parse is confined by the per-symbol try, so the collector's
result is the concatenation of independent per-symbol parses. -/
theorem C8_item_isolation :
    (∀ items : List BinanceItem,
      (∀ i ∈ items.drop (items.length - 50), binanceItemRaises i = false) →
      fetch_binance_funding_direct items =
        (items.drop (items.length - 50)).filterMap binanceQuoteOf) ∧
    (∀ responses : List (String × List BybitItem),
      fetch_bybit_funding_direct responses =
        (responses.map (fun p => bybitSymbolLoop p.1 p.2 [])).join) :=
  ⟨fun _ h => fetch_binance_no_raise h, fetch_bybit_join⟩

/-- C8 counterexample: one non-numeric rate string ("abc") in the Binance
response makes the fetcher return the empty list, discarding the quote it
had already parsed from the well-formed first item — the same item alone
yields that quote. -/
theorem C8_counterexample :
    fetch_binance_funding_direct [goodItem, badItem] = [] ∧
    (fetch_binance_funding_direct [goodItem]).map (fun q => (q.symbol, q.exchange)) =
      [("BTC/USDT:USDT", "binance")] := by
  exact ⟨rfl, rfl⟩

/-- C8 witness: with a well-formed item, a missing-rate item and a null-rate
item, only the two falsy items are skipped and the good quote is kept. -/
theorem C8_witness :
    fetch_binance_funding_direct [goodItem, missingItem, nullItem] =
      ([goodItem, missingItem, nullItem].drop
        ([goodItem, missingItem, nullItem].length - 50)).filterMap binanceQuoteOf ∧
    (fetch_binance_funding_direct [goodItem, missingItem, nullItem]).map
        (fun q => (q.symbol, q.exchange)) = [("BTC/USDT:USDT", "binance")] := by
  have h := C8_item_isolation.1 [goodItem, missingItem, nullItem] (by decide)
  exact ⟨h, by rw [h]; rfl⟩

/-- C9: a POST to /webhook/tradingview with a missing payload, a wrong
auth_key, or an empty/missing symbol or action field is answered with a 4xx
status and a JSON error body, and nothing is appended to the
trading_signals buffer. -/
theorem C9_webhook_rejects (webhook_auth_key : String) (data : Option WebhookPayload)
    (signals : List SignalData) (now : ℕ)
    (h : data = none ∨ ∃ p, data = some p ∧
      (p.auth_key.getD "" ≠ webhook_auth_key ∨
       p.symbol.getD "" = "" ∨ p.action.getD "" = "")) :
    400 ≤ (tradingview_webhook webhook_auth_key data signals now).statusCode ∧
    (tradingview_webhook webhook_auth_key data signals now).statusCode < 500 ∧
    (tradingview_webhook webhook_auth_key data signals now).error.isSome = true ∧
    (tradingview_webhook webhook_auth_key data signals now).trading_signals = signals := by
  rcases h with rfl | ⟨p, rfl, hcase⟩
  · have hr : tradingview_webhook webhook_auth_key none signals now =
        ⟨400, some "No JSON data received", signals⟩ := rfl
    rw [hr]
    exact ⟨by norm_num, by norm_num, rfl, rfl⟩
  · by_cases hauth : p.auth_key.getD "" ≠ webhook_auth_key
    · have hr : tradingview_webhook webhook_auth_key (some p) signals now =
          ⟨401, some "Invalid auth key", signals⟩ := by
        dsimp only [tradingview_webhook]
        rw [if_pos hauth]
      rw [hr]
      exact ⟨by norm_num, by norm_num, rfl, rfl⟩
    · have hmiss : p.symbol.getD "" = "" ∨ p.action.getD "" = "" :=
        hcase.resolve_left hauth
      have hr : tradingview_webhook webhook_auth_key (some p) signals now =
          ⟨400, some "Missing required fields: symbol, action", signals⟩ := by
        dsimp only [tradingview_webhook]
        rw [if_neg hauth, if_pos hmiss]
      rw [hr]
      exact ⟨by norm_num, by norm_num, rfl, rfl⟩

/-- C9 witness: a POST with no JSON payload is refused with status 400 and
an error body, and the signal buffer stays empty. -/
theorem C9_witness :
    400 ≤ (tradingview_webhook "YOUR_SECRET_KEY_2024" none [] 0).statusCode ∧
    (tradingview_webhook "YOUR_SECRET_KEY_2024" none [] 0).statusCode < 500 ∧
    (tradingview_webhook "YOUR_SECRET_KEY_2024" none [] 0).error.isSome = true ∧
    (tradingview_webhook "YOUR_SECRET_KEY_2024" none [] 0).trading_signals = [] :=
  C9_webhook_rejects "YOUR_SECRET_KEY_2024" none [] 0 (Or.inl rfl)

/-- C10: for every current time, get_next_funding_time returns a strictly
future timestamp on an exact hour in {0, 8, 16} UTC (minute, second and
microsecond all zero), and time_until_funding reports a non-negative
remaining duration below 24 hours. -/
theorem C10_funding_time (now : ℕ) :
    now < get_next_funding_time now ∧
    get_next_funding_time now % usPerHour = 0 ∧
    (get_next_funding_time now / usPerHour % 24 = 0 ∨
     get_next_funding_time now / usPerHour % 24 = 8 ∨
     get_next_funding_time now / usPerHour % 24 = 16) ∧
    0 ≤ (time_until_funding now).total_minutes ∧
    (time_until_funding now).total_minutes < 24 * 60 ∧
    0 ≤ (time_until_funding now).hours_remaining ∧
    (time_until_funding now).hours_remaining < 24 ∧
    0 ≤ (time_until_funding now).minutes_remaining ∧
    (time_until_funding now).minutes_remaining < 60 := by
  obtain ⟨h1, h2, h3, h4⟩ := get_next_funding_time_bounds now
  rw [time_until_funding_fields]
  dsimp only
  simp only [usPerHour] at h2
  set Δ := get_next_funding_time now - now with hΔ
  have htm : Δ / 60000000 < 24 * 60 := by omega
  have hhr : Δ / 3600000000 < 24 := by omega
  have hmin : Δ % 3600000000 / 60000000 < 60 := by omega
  refine ⟨h1, h3, h4, Int.natCast_nonneg _, ?_, Int.natCast_nonneg _, ?_,
    Int.natCast_nonneg _, ?_⟩
  · exact_mod_cast htm
  · exact_mod_cast hhr
  · exact_mod_cast hmin

end FundingBackend
